import Mathlib

/-!
Verification of `dirty_cat.pretrained_fastText.PretrainedFastText`:
a shallow embedding of `src/dirty_cat/pretrained_fastText.py`.

The class wraps an external fastText model.  The external library
(`fasttext` / `fasttext.util`) is an opaque collaborator: we model a loaded
fastText model (`FTModel`) by its only operation used at transform time,
`get_sentence_vector`, and we model the external in-place reduction
`fasttext.util.reduce_model` as an abstract function parameter
`reduceExt : FTModel → Nat → FTModel`.

Vector entries undergo no arithmetic anywhere in this code (they are only
produced by the provider, stored, and gathered), so we model them with `Int`
rather than floating point; every claim below is about data movement,
shapes and control flow, never about float arithmetic.

Arrays passed to `transform` are modelled *after* `np.asarray`: a 1-D or 2-D
numpy array whose cells are either strings or non-string objects
(an object-dtype array in numpy terms).  `Value.int` stands for any
non-string cell.
-/

/-- A cell of the input array: a string, or a non-string object
(modelled by an integer payload). -/
inductive Value where
  | str (s : String)
  | int (n : Int)
deriving DecidableEq, Repr

/-- A numpy array as accepted by `transform`: 1-D, or 2-D given by its rows
(rectangular in all runs we reason about). -/
inductive NDArray where
  | d1 (xs : List Value)
  | d2 (rows : List (List Value))
deriving DecidableEq, Repr

/-- The Python exceptions raised by the methods we model. -/
inductive TError where
  /-- Failure of `assert X.ndim == 1 or (X.ndim == 2 and X.shape[1] == 1)`;
  carries `X.shape` as reported in the message. -/
  | unsupportedShape (shape : List Nat)
  /-- Failure of `assert isinstance(X[0], str)`: "ERROR: Input data is not string." -/
  | notString
  /-- indexing error, e.g. `X[0]` on an empty array. -/
  | indexError
  /-- numpy `ValueError`, e.g. assigning a vector of incompatible length
  into a row of the scratch matrix. -/
  | valueError
  /-- Python `TypeError`, e.g. `np.unique` sorting an object array holding
  both strings and non-strings. -/
  | typeError
  /-- the `assert n_components < self.n_components` in `reduce_model` failed. -/
  | assertionError
  /-- A `FileNotFoundError` raised by `load_model`; carries the message. -/
  | fileNotFound (msg : String)
deriving DecidableEq, Repr

/-- The loaded fastText model, reduced to the single operation `transform`
uses: `get_sentence_vector`, mapping a string to a numeric vector. -/
structure FTModel where
  get_sentence_vector : String → List Int

namespace PretrainedFastText

/-- Model of `os.path.join bin_dir file_name` (no trailing-slash handling needed for
the paths we reason about). -/
def pathJoin (dir file : String) : String := dir ++ "/" ++ file

/-- The naming convention `"cc.{language}.{n_components}.bin"`. -/
def defaultFileName (language : String) (n_components : Nat) : String :=
  "cc." ++ language ++ "." ++ Nat.repr n_components ++ ".bin"

/-- Clamping in `__init__`:
`self.n_components = n_components if n_components < 300 else 300`. -/
def initNComponents (n_components : Nat) : Nat :=
  if n_components < 300 then n_components else 300

/-- The file name resolved by `__init__`:
`if file_name == None: file_name = f"cc.{language}.{n_components}.bin"`.
Note that the *parameter* `n_components` is used here, not the clamped
attribute `self.n_components`. -/
def initFileName (language : String) (n_components : Nat)
    (file_name : Option String) : String :=
  match file_name with
  | none => defaultFileName language n_components
  | some f => f

/-- Message of the `FileNotFoundError` raised by `load_model` (the Python
source uses backslash line continuations inside the f-string, which leave
runs of spaces in the message; we keep the text, normalising that incidental
whitespace to single spaces). -/
def modelNotFoundMsg (path : String) : String :=
  "The file " ++ path ++ " doesn't exist. " ++
  "Download it with self.download_model(), or from " ++
  "https://fasttext.cc/docs/en/crawl-vectors.html. " ++
  "Then load it manually with self.load_model()."

/-- The state of a successfully constructed `PretrainedFastText` object. -/
structure State where
  n_components : Nat
  language : String
  bin_dir : String
  file_path : String
  ft_model : FTModel

/-- The filesystem of model binaries, as seen by `os.path.isfile` +
`fasttext.load_model`: maps a path to the model stored there, if any. -/
def FileStore : Type := String → Option FTModel

/-- Method `load_model` (lines 87–112): try `self.file_path`, else fall back to the
300-dimensional file reduced in place to `self.n_components`, else raise
`FileNotFoundError`.  The external `fasttext.util.reduce_model` is the
abstract `reduceExt`. -/
def load_model (fs : FileStore) (reduceExt : FTModel → Nat → FTModel)
    (n_components : Nat) (language bin_dir file_path : String) :
    Except TError State :=
  let file_path_300 := pathJoin bin_dir (defaultFileName language 300)
  match fs file_path with
  | some m =>
      .ok ⟨n_components, language, bin_dir, file_path, m⟩
  | none =>
      match fs file_path_300 with
      | some m =>
          .ok ⟨n_components, language, bin_dir, file_path,
               reduceExt m n_components⟩
      | none => .error (.fileNotFound (modelNotFoundMsg file_path_300))

/-- Constructor `__init__` (lines 58–69): clamp `n_components`, resolve the file path
(with the *unclamped* parameter when no explicit name is given), then
`self.load_model()`.  An `.error` result models the constructor raising,
leaving no object (in particular no populated `ft_model` handle). -/
def init (fs : FileStore) (reduceExt : FTModel → Nat → FTModel)
    (n_components : Nat) (language : String) (bin_dir : String)
    (file_name : Option String) : Except TError State :=
  let nc := initNComponents n_components
  let file_path := pathJoin bin_dir (initFileName language n_components file_name)
  load_model fs reduceExt nc language bin_dir file_path

/-- Method `reduce_model` (lines 137–154).  On assertion failure the object is
returned unchanged together with the raised error; on success
`self.n_components` is updated and the external reduction is applied to the
model handle. -/
def reduce_model (reduceExt : FTModel → Nat → FTModel)
    (st : State) (n_components : Nat) : State × Option TError :=
  if n_components < st.n_components then
    ({ st with
        n_components := n_components
        ft_model := reduceExt st.ft_model n_components }, none)
  else
    (st, some .assertionError)

/-! Method `transform` (lines 166–197). -/

/-- Shape of a numpy array, as reported in the assertion message. -/
def shapeOf : NDArray → List Nat
  | .d1 xs => [xs.length]
  | .d2 rows => [rows.length, (rows.headD []).length]

/-- The shape check and single-column flattening:
`assert X.ndim == 1 or (X.ndim == 2 and X.shape[1] == 1)` followed by
`if X.ndim == 2: X = X[:, 0]`. -/
def checkShapeFlatten : NDArray → Except TError (List Value)
  | .d1 xs => .ok xs
  | .d2 rows =>
      if (rows.headD []).length = 1 then
        .ok (rows.map (fun r => r.headD (.int 0)))
      else
        .error (.unsupportedShape (shapeOf (.d2 rows)))

/-- After the first-element check, `np.unique` sorts the array; on an
object-dtype array holding both strings and non-strings the underlying
Python comparison raises `TypeError`.  Extract the strings, or fail. -/
def asStrings : List Value → Except TError (List String)
  | [] => .ok []
  | .str s :: rest =>
      match asStrings rest with
      | .ok ss => .ok (s :: ss)
      | .error e => .error e
  | .int _ :: _ => .error .typeError

/-- Model of `np.unique(X, return_inverse=True)`: the sorted list of distinct values,
and for each position of `X` the index of its value in that list. -/
def npUnique (X : List String) : List String × List Nat :=
  let unq := X.dedup.mergeSort (fun a b => decide (a ≤ b))
  (unq, X.map (fun x => unq.indexOf x))

/-- Assignment `unq_X_out[idx] = v` of a vector `v` into a row of the
`np.empty((len(unq_X), n_components))` scratch matrix: exact-length
assignment, numpy length-1 broadcast, or `ValueError`. -/
def assignRow (n : Nat) (v : List Int) : Except TError (List Int) :=
  if v.length = n then .ok v
  else if v.length = 1 then .ok (List.replicate n (v.headD 0))
  else .error .valueError

/-- The provider loop
`for idx, x in enumerate(unq_X): unq_X_out[idx] = ft_model.get_sentence_vector(x)`.
Returns the scratch rows (or the error that interrupted the loop) together
with the trace of arguments actually passed to `get_sentence_vector`. -/
def buildRows (model : FTModel) (n : Nat) :
    List String → Except TError (List (List Int)) × List String
  | [] => (.ok [], [])
  | x :: xs =>
      match assignRow n (model.get_sentence_vector x) with
      | .error e => (.error e, [x])
      | .ok r =>
          match buildRows model n xs with
          | (.error e, t) => (.error e, x :: t)
          | (.ok rs, t) => (.ok (r :: rs), x :: t)

/-- The gather `X_out = unq_X_out[lookup]` (numpy fancy indexing; an
out-of-range index would raise). -/
def gatherRows (rows : List (List Int)) : List Nat → Except TError (List (List Int))
  | [] => .ok []
  | j :: js =>
      match rows.get? j with
      | none => .error .indexError
      | some r =>
          match gatherRows rows js with
          | .error e => .error e
          | .ok out => .ok (r :: out)

/-- Body of `transform` (lines 166–197), instrumented with the trace of strings
passed to the embedding provider.  Pipeline: shape check and flattening,
`X[0]` string check (an empty array raises `IndexError` at `X[0]`),
`np.unique`, one provider call per distinct value, gather. -/
def transformCore (model : FTModel) (n : Nat) (Xraw : NDArray) :
    Except TError (List (List Int)) × List String :=
  match checkShapeFlatten Xraw with
  | .error e => (.error e, [])
  | .ok X =>
      match X.head? with
      | none => (.error .indexError, [])
      | some (.int _) => (.error .notString, [])
      | some (.str _) =>
          match asStrings X with
          | .error e => (.error e, [])
          | .ok Xs =>
              match buildRows model n (npUnique Xs).1 with
              | (.error e, t) => (.error e, t)
              | (.ok rows, t) =>
                  match gatherRows rows (npUnique Xs).2 with
                  | .error e => (.error e, t)
                  | .ok out => (.ok out, t)

/-- Function `transform` proper: the value returned (or exception raised). -/
def transform (model : FTModel) (n : Nat) (Xraw : NDArray) :
    Except TError (List (List Int)) :=
  (transformCore model n Xraw).1

/-- Function `transform` as a method of the object state
(`self.ft_model`, `self.n_components`). -/
def State.transformM (st : State) (Xraw : NDArray) :
    Except TError (List (List Int)) :=
  transform st.ft_model st.n_components Xraw

/-! Lemmas about the transform pipeline. -/

lemma asStrings_map_str (Xs : List String) :
    asStrings (Xs.map Value.str) = .ok Xs := by
  induction Xs with
  | nil => rfl
  | cons x xs ih => simp [asStrings, List.map, ih]

lemma mem_npUnique {Xs : List String} {x : String} :
    x ∈ (npUnique Xs).1 ↔ x ∈ Xs := by
  simp [npUnique, List.mem_mergeSort, List.mem_dedup]

lemma length_npUnique (Xs : List String) :
    (npUnique Xs).1.length = Xs.dedup.length := by
  simp [npUnique, List.length_mergeSort]

lemma nodup_npUnique (Xs : List String) : (npUnique Xs).1.Nodup := by
  have h := List.mergeSort_perm Xs.dedup (fun a b => decide (a ≤ b))
  exact h.nodup_iff.mpr Xs.nodup_dedup

lemma perm_npUnique (Xs : List String) :
    (npUnique Xs).1.Perm Xs.dedup :=
  List.mergeSort_perm Xs.dedup (fun a b => decide (a ≤ b))

lemma assignRow_ok_length {n : Nat} {v r : List Int}
    (h : assignRow n v = .ok r) : r.length = n := by
  unfold assignRow at h
  split at h
  · cases h; omega
  · split at h
    · cases h; simp
    · cases h

lemma assignRow_of_length {n : Nat} {v : List Int}
    (h : v.length = n) : assignRow n v = .ok v := by
  simp [assignRow, h]

lemma buildRows_ok {model : FTModel} {n : Nat} {l : List String}
    (hlen : ∀ x ∈ l, (model.get_sentence_vector x).length = n) :
    buildRows model n l = (.ok (l.map model.get_sentence_vector), l) := by
  induction l with
  | nil => rfl
  | cons x xs ih =>
      have hx := hlen x (List.mem_cons_self x xs)
      have ihx := ih (fun y hy => hlen y (List.mem_cons_of_mem x hy))
      simp [buildRows, assignRow_of_length hx, ihx]

lemma buildRows_rows_length {model : FTModel} {n : Nat} {l : List String}
    {rows : List (List Int)} {t : List String}
    (h : buildRows model n l = (.ok rows, t)) :
    ∀ r ∈ rows, r.length = n := by
  induction l generalizing rows t with
  | nil =>
      simp only [buildRows, Prod.mk.injEq] at h
      obtain ⟨h1, -⟩ := h
      injection h1 with h1
      subst h1
      simp
  | cons x xs ih =>
      simp only [buildRows] at h
      rcases ha : assignRow n (model.get_sentence_vector x) with e | r₀ <;>
        rw [ha] at h
      · simp only [Prod.mk.injEq] at h
        exact absurd h.1 (by simp)
      · rcases hb : buildRows model n xs with ⟨res, tr⟩
        rw [hb] at h
        cases res with
        | error e =>
            simp only [Prod.mk.injEq] at h
            exact absurd h.1 (by simp)
        | ok rs =>
            simp only [Prod.mk.injEq] at h
            obtain ⟨h1, -⟩ := h
            injection h1 with h1
            subst h1
            intro r hr
            rcases List.mem_cons.mp hr with rfl | hr
            · exact assignRow_ok_length ha
            · exact ih hb r hr

lemma gatherRows_ok_of_indexOf {model : FTModel} {unq : List String}
    (Xs : List String) (hmem : ∀ x ∈ Xs, x ∈ unq) :
    gatherRows (unq.map model.get_sentence_vector)
        (Xs.map (fun x => unq.indexOf x)) =
      .ok (Xs.map model.get_sentence_vector) := by
  induction Xs with
  | nil => rfl
  | cons x xs ih =>
      have hx : x ∈ unq := hmem x (List.mem_cons_self x xs)
      have hget : unq[unq.indexOf x]? = some x := by
        rw [← List.get?_eq_getElem?]
        exact List.indexOf_get? hx
      have ihx := ih (fun y hy => hmem y (List.mem_cons_of_mem x hy))
      simp [gatherRows, hget, ihx]

lemma gatherRows_mem {rows out : List (List Int)} {js : List Nat}
    (h : gatherRows rows js = .ok out) : ∀ r ∈ out, r ∈ rows := by
  induction js generalizing out with
  | nil => cases h; simp
  | cons j js ih =>
      simp only [gatherRows] at h
      rcases hg : rows.get? j with _ | r
      · rw [hg] at h; cases h
      · rw [hg] at h
        rcases hrec : gatherRows rows js with e | out'
        · rw [hrec] at h; cases h
        · rw [hrec] at h
          cases h
          intro s hs
          rcases List.mem_cons.mp hs with rfl | hs
          · exact List.get?_mem hg
          · exact ih hrec s hs

lemma gatherRows_length {rows out : List (List Int)} {js : List Nat}
    (h : gatherRows rows js = .ok out) : out.length = js.length := by
  induction js generalizing out with
  | nil => cases h; rfl
  | cons j js ih =>
      simp only [gatherRows] at h
      rcases hg : rows.get? j with _ | r
      · rw [hg] at h; cases h
      · rw [hg] at h
        rcases hrec : gatherRows rows js with e | out'
        · rw [hrec] at h; cases h
        · rw [hrec] at h
          cases h
          simp [ih hrec]

/-- The main evaluation lemma: on a nonempty all-string 1-D input, with a
provider emitting vectors of the configured width, `transform` succeeds and
returns exactly the naive per-row map, and the provider is called exactly
on the sorted distinct values. -/
lemma transformCore_strings (model : FTModel) (n : Nat) (Xs : List String)
    (hne : Xs ≠ [])
    (hlen : ∀ s, (model.get_sentence_vector s).length = n) :
    transformCore model n (.d1 (Xs.map Value.str)) =
      (.ok (Xs.map model.get_sentence_vector), (npUnique Xs).1) := by
  obtain ⟨x, xs, rfl⟩ := List.exists_cons_of_ne_nil hne
  have hb : buildRows model n (npUnique (x :: xs)).1 =
      (.ok ((npUnique (x :: xs)).1.map model.get_sentence_vector),
        (npUnique (x :: xs)).1) :=
    buildRows_ok (fun y _ => hlen y)
  have hg : gatherRows ((npUnique (x :: xs)).1.map model.get_sentence_vector)
      (npUnique (x :: xs)).2 = .ok ((x :: xs).map model.get_sentence_vector) :=
    gatherRows_ok_of_indexOf (x :: xs) (fun y hy => mem_npUnique.mpr hy)
  have has : asStrings (Value.str x :: xs.map Value.str) = .ok (x :: xs) :=
    asStrings_map_str (x :: xs)
  simp only [transformCore, checkShapeFlatten, List.map_cons, List.head?,
    has, hb, hg]

/-- Once the shape check succeeds, `transform` only sees the flattened 1-D
array: a 2-D single-column input behaves as its flattening. -/
lemma transformCore_congr_flatten {Xraw : NDArray} {X : List Value}
    (h : checkShapeFlatten Xraw = .ok X) (model : FTModel) (n : Nat) :
    transformCore model n Xraw = transformCore model n (.d1 X) := by
  unfold transformCore
  rw [h]
  rfl

/-- Inversion of a successful `transformCore` run. -/
lemma transformCore_ok_inv {model : FTModel} {n : Nat} {Xraw : NDArray}
    {out : List (List Int)} {t : List String}
    (h : transformCore model n Xraw = (.ok out, t)) :
    ∃ X Xs rows,
      checkShapeFlatten Xraw = .ok X ∧ asStrings X = .ok Xs ∧
      buildRows model n (npUnique Xs).1 = (.ok rows, t) ∧
      gatherRows rows (npUnique Xs).2 = .ok out := by
  unfold transformCore at h
  split at h
  · simp at h
  next X hs =>
    split at h
    · simp at h
    · simp at h
    next s hh =>
      split at h
      · simp at h
      next Xs ha =>
        split at h
        · simp at h
        next rows tr hbr =>
          split at h
          · simp at h
          next out' hgr =>
            simp only [Prod.mk.injEq] at h
            obtain ⟨h1, h2⟩ := h
            injection h1 with h1
            subst h1; subst h2
            exact ⟨X, Xs, rows, hs, ha, hbr, hgr⟩

/-- Any row of any successful `transform` output has exactly
`n_components` entries (the width of the `np.empty` scratch matrix). -/
lemma transform_ok_rows_length {model : FTModel} {n : Nat} {Xraw : NDArray}
    {out : List (List Int)} (h : transform model n Xraw = .ok out) :
    ∀ r ∈ out, r.length = n := by
  unfold transform at h
  rcases hc : transformCore model n Xraw with ⟨res, t⟩
  rw [hc] at h
  cases h
  obtain ⟨X, Xs, rows, -, -, hbr, hgr⟩ := transformCore_ok_inv hc
  intro r hr
  exact buildRows_rows_length hbr r (gatherRows_mem hgr r hr)

/-- Model of `len(X)`: the number of samples of an input array (row count for the
2-D case). -/
def numRows : NDArray → Nat
  | .d1 xs => xs.length
  | .d2 rows => rows.length

lemma checkShapeFlatten_length {Xraw : NDArray} {X : List Value}
    (h : checkShapeFlatten Xraw = .ok X) : X.length = numRows Xraw := by
  cases Xraw with
  | d1 xs =>
      simp only [checkShapeFlatten] at h
      cases h
      rfl
  | d2 rows =>
      simp only [checkShapeFlatten] at h
      split at h
      · cases h; simp [numRows]
      · cases h

/-- An "accepted" run: any input passing the shape check with all-string
content evaluates to the naive per-row provider map, with the provider
called exactly on the sorted distinct values. -/
lemma transformCore_accepted (model : FTModel) (n : Nat) {Xraw : NDArray}
    {Xs : List String}
    (hshape : checkShapeFlatten Xraw = .ok (Xs.map Value.str))
    (hne : Xs ≠ [])
    (hlen : ∀ s, (model.get_sentence_vector s).length = n) :
    transformCore model n Xraw =
      (.ok (Xs.map model.get_sentence_vector), (npUnique Xs).1) := by
  rw [transformCore_congr_flatten hshape]
  exact transformCore_strings model n Xs hne hlen

lemma transform_accepted (model : FTModel) (n : Nat) {Xraw : NDArray}
    {Xs : List String}
    (hshape : checkShapeFlatten Xraw = .ok (Xs.map Value.str))
    (hne : Xs ≠ [])
    (hlen : ∀ s, (model.get_sentence_vector s).length = n) :
    transform model n Xraw = .ok (Xs.map model.get_sentence_vector) := by
  unfold transform
  rw [transformCore_accepted model n hshape hne hlen]

/-- Classification of `checkShapeFlatten` failures: the shape assertion is
the only error this step raises. -/
lemma checkShapeFlatten_error {Xraw : NDArray} {e : TError}
    (h : checkShapeFlatten Xraw = .error e) :
    ∃ sh, e = .unsupportedShape sh := by
  cases Xraw with
  | d1 xs => cases h
  | d2 rows =>
      simp only [checkShapeFlatten] at h
      split at h
      · cases h
      · injection h with h
        exact ⟨_, h.symm⟩

/-- Classification of `asStrings` failures: only `TypeError`. -/
lemma asStrings_error {X : List Value} {e : TError}
    (h : asStrings X = .error e) : e = .typeError := by
  induction X with
  | nil => cases h
  | cons v rest ih =>
      cases v with
      | str s =>
          simp only [asStrings] at h
          split at h
          · cases h
          next e' heq =>
            injection h with h
            subst h
            exact ih heq
      | int m =>
          injection h with h
          exact h.symm

/-- Classification of `assignRow` failures: only `ValueError`. -/
lemma assignRow_error {n : Nat} {v : List Int} {e : TError}
    (h : assignRow n v = .error e) : e = .valueError := by
  unfold assignRow at h
  split at h
  · cases h
  · split at h
    · cases h
    · injection h with h
      exact h.symm

/-- Classification of `buildRows` failures: only `ValueError`. -/
lemma buildRows_error {model : FTModel} {n : Nat} {l : List String}
    {e : TError} {t : List String}
    (h : buildRows model n l = (.error e, t)) : e = .valueError := by
  induction l generalizing t with
  | nil =>
      simp only [buildRows, Prod.mk.injEq] at h
      exact absurd h.1 (by simp)
  | cons x xs ih =>
      simp only [buildRows] at h
      split at h
      next e' ha =>
        simp only [Prod.mk.injEq] at h
        obtain ⟨h1, -⟩ := h
        injection h1 with h1
        subst h1
        exact assignRow_error ha
      next r ha =>
        split at h
        next e' t' hb =>
          simp only [Prod.mk.injEq] at h
          obtain ⟨h1, -⟩ := h
          injection h1 with h1
          subst h1
          exact ih hb
        next rs t' hb =>
          simp only [Prod.mk.injEq] at h
          exact absurd h.1 (by simp)

/-- Classification of `gatherRows` failures: only an indexing error. -/
lemma gatherRows_error {rows : List (List Int)} {js : List Nat} {e : TError}
    (h : gatherRows rows js = .error e) : e = .indexError := by
  induction js with
  | nil => cases h
  | cons j js ih =>
      simp only [gatherRows] at h
      split at h
      · injection h with h
        exact h.symm
      next r hg =>
        split at h
        next e' hrec =>
          injection h with h
          subst h
          exact ih hrec
        next out hrec => cases h

/-- A concrete provider used to instantiate the theorems below: conforming
for width 2. -/
def demoModel : FTModel := ⟨fun s => [(s.length : Int), 7]⟩

/-- A concrete object state used to instantiate the theorems below. -/
def demoState : State :=
  ⟨2, "en", "./fastText_bins", "./fastText_bins/cc.en.2.bin", demoModel⟩

/-! The claims. -/

/-- Claim C1: for every input accepted by `transform` (an array passing the
shape check, flattening to a nonempty all-string 1-D sequence `Xs`) and a
provider emitting vectors of the configured width, output row `i` equals the
provider's vector for `Xs[i]`, and the whole output equals the naive
once-per-row provider map — the deduplicated path is observationally
identical in values, for every duplicate structure of the input. -/
theorem C1_dedup_equivalence (model : FTModel) (n : Nat) (Xraw : NDArray)
    (Xs : List String)
    (hshape : checkShapeFlatten Xraw = .ok (Xs.map Value.str))
    (hne : Xs ≠ [])
    (hlen : ∀ s, (model.get_sentence_vector s).length = n) :
    ∃ out, transform model n Xraw = .ok out ∧
      out = Xs.map model.get_sentence_vector ∧
      ∀ (i : Nat) x, Xs[i]? = some x →
        out[i]? = some (model.get_sentence_vector x) := by
  refine ⟨Xs.map model.get_sentence_vector,
    transform_accepted model n hshape hne hlen, rfl, ?_⟩
  intro i x hx
  rw [List.getElem?_map, hx]
  rfl

/-- Witness for C1 at the concrete input `["b", "a", "b"]`. -/
theorem C1_dedup_equivalence_witness :
    ∃ out, transform demoModel 2 (.d1 (["b", "a", "b"].map Value.str)) =
        .ok out ∧
      out = ["b", "a", "b"].map demoModel.get_sentence_vector ∧
      ∀ (i : Nat) x, (["b", "a", "b"] : List String)[i]? = some x →
        out[i]? = some (demoModel.get_sentence_vector x) :=
  C1_dedup_equivalence demoModel 2 _ ["b", "a", "b"] rfl
    (List.cons_ne_nil _ _) (fun _ => rfl)

/-- Claim C2: one `transform` call passes to the provider exactly the distinct
values of the input, each exactly once (the call trace is a permutation of
the dedup list, so the call count is `|distinct values|`), and two positions
holding the same string receive identical output rows — the same stored
provider result gathered twice. -/
theorem C2_call_count (model : FTModel) (n : Nat) (Xraw : NDArray)
    (Xs : List String)
    (hshape : checkShapeFlatten Xraw = .ok (Xs.map Value.str))
    (hne : Xs ≠ [])
    (hlen : ∀ s, (model.get_sentence_vector s).length = n) :
    (transformCore model n Xraw).2.Perm Xs.dedup ∧
    (transformCore model n Xraw).2.length = Xs.dedup.length ∧
    ∀ (i j : Nat) x, Xs[i]? = some x → Xs[j]? = some x →
      ∃ out, transform model n Xraw = .ok out ∧
        out[i]? = out[j]? ∧
        out[i]? = some (model.get_sentence_vector x) := by
  have hc := transformCore_accepted model n hshape hne hlen
  refine ⟨?_, ?_, ?_⟩
  · rw [hc]; exact perm_npUnique Xs
  · rw [hc]; exact length_npUnique Xs
  · intro i j x hi hj
    refine ⟨Xs.map model.get_sentence_vector, ?_, ?_, ?_⟩
    · unfold transform; rw [hc]
    · rw [List.getElem?_map, List.getElem?_map, hi, hj]
    · rw [List.getElem?_map, hi]; rfl

/-- Witness for C2 at `["b", "a", "b"]`, positions 0 and 2 both holding
`"b"`. -/
theorem C2_call_count_witness :
    (transformCore demoModel 2 (.d1 (["b", "a", "b"].map Value.str))).2.Perm
        (["b", "a", "b"] : List String).dedup ∧
    (transformCore demoModel 2 (.d1 (["b", "a", "b"].map Value.str))).2.length =
        (["b", "a", "b"] : List String).dedup.length ∧
    ∀ (i j : Nat) x, (["b", "a", "b"] : List String)[i]? = some x →
      (["b", "a", "b"] : List String)[j]? = some x →
      ∃ out, transform demoModel 2 (.d1 (["b", "a", "b"].map Value.str)) =
          .ok out ∧
        out[i]? = out[j]? ∧
        out[i]? = some (demoModel.get_sentence_vector x) :=
  C2_call_count demoModel 2 _ ["b", "a", "b"] rfl
    (List.cons_ne_nil _ _) (fun _ => rfl)

/-- Claim C3: every accepted input yields a matrix with one row per input
sample (a 2-D single-column input counted by its row count) and every row of
length `n_components`. -/
theorem C3_shape_contract (model : FTModel) (n : Nat) (Xraw : NDArray)
    (Xs : List String)
    (hshape : checkShapeFlatten Xraw = .ok (Xs.map Value.str))
    (hne : Xs ≠ [])
    (hlen : ∀ s, (model.get_sentence_vector s).length = n) :
    ∃ out, transform model n Xraw = .ok out ∧
      out.length = numRows Xraw ∧ ∀ r ∈ out, r.length = n := by
  refine ⟨_, transform_accepted model n hshape hne hlen, ?_, ?_⟩
  · have hl := checkShapeFlatten_length hshape
    simpa using hl
  · intro r hr
    obtain ⟨x, -, rfl⟩ := List.mem_map.mp hr
    exact hlen x

/-- Witness for C3 at the 2-D single-column input `[["a"], ["b"]]`. -/
theorem C3_shape_contract_witness :
    ∃ out, transform demoModel 2
        (.d2 [[Value.str "a"], [Value.str "b"]]) = .ok out ∧
      out.length = numRows (.d2 [[Value.str "a"], [Value.str "b"]]) ∧
      ∀ r ∈ out, r.length = 2 :=
  C3_shape_contract demoModel 2 _ ["a", "b"] rfl
    (List.cons_ne_nil _ _) (fun _ => rfl)

/-- Claim C4: `transform` accepts exactly the 1-D and single-column 2-D
shapes: a 2-D input whose rows are not single-width fails with the shape
assertion naming the offending shape, a 1-D input always passes the shape
check, and a single-column 2-D input behaves identically to `transform` of
its flattened 1-D column. -/
theorem C4_shape_rejection_and_flattening (model : FTModel) (n : Nat) :
    (∀ rows : List (List Value), (rows.headD []).length ≠ 1 →
      transform model n (.d2 rows) =
        .error (.unsupportedShape [rows.length, (rows.headD []).length])) ∧
    (∀ xs : List Value, checkShapeFlatten (.d1 xs) = .ok xs) ∧
    (∀ xs : List Value, xs ≠ [] →
      transform model n (.d2 (xs.map (fun x => [x]))) =
        transform model n (.d1 xs)) := by
  refine ⟨?_, fun xs => rfl, ?_⟩
  · intro rows hc
    have hs : checkShapeFlatten (.d2 rows) =
        .error (.unsupportedShape [rows.length, (rows.headD []).length]) := by
      simp only [checkShapeFlatten, shapeOf]
      rw [if_neg hc]
    unfold transform transformCore
    rw [hs]
  · intro xs hne
    have hs : checkShapeFlatten (.d2 (xs.map (fun x => [x]))) = .ok xs := by
      obtain ⟨y, ys, rfl⟩ := List.exists_cons_of_ne_nil hne
      simp [checkShapeFlatten, List.map_map, Function.comp_def]
    unfold transform
    rw [transformCore_congr_flatten hs]

/-- Witness for C4: a `(5, 2)` input is rejected with its shape in the
error, `(2, 1)` and `(2,)` inputs with the same values agree. -/
theorem C4_shape_rejection_and_flattening_witness :
    transform demoModel 2
        (.d2 (List.replicate 5 [Value.str "a", Value.str "b"])) =
      .error (.unsupportedShape [5, 2]) ∧
    checkShapeFlatten (.d1 [Value.str "a"]) = .ok [Value.str "a"] ∧
    transform demoModel 2 (.d2 [[Value.str "x"], [Value.str "y"]]) =
      transform demoModel 2 (.d1 [Value.str "x", Value.str "y"]) := by
  refine ⟨?_, ?_, ?_⟩
  · have h := (C4_shape_rejection_and_flattening demoModel 2).1
      (List.replicate 5 [Value.str "a", Value.str "b"]) (by decide)
    simpa using h
  · exact (C4_shape_rejection_and_flattening demoModel 2).2.1 _
  · exact (C4_shape_rejection_and_flattening demoModel 2).2.2
      [Value.str "x", Value.str "y"] (by decide)

/-- Claim C5: `reduce_model k` succeeds iff `k` is strictly below the current
`n_components`; after success the recorded `n_components` is `k` and every
subsequent successful transform produces rows of length `k`; on failure the
assertion fires and the object is left fully unchanged. -/
theorem C5_reduction_monotonicity (reduceExt : FTModel → Nat → FTModel)
    (st : State) (k : Nat) :
    ((reduce_model reduceExt st k).2 = none ↔ k < st.n_components) ∧
    (k < st.n_components →
      (reduce_model reduceExt st k).1.n_components = k ∧
      ∀ Xraw out, ((reduce_model reduceExt st k).1).transformM Xraw = .ok out →
        ∀ r ∈ out, r.length = k) ∧
    (¬ k < st.n_components →
      reduce_model reduceExt st k = (st, some .assertionError)) := by
  refine ⟨⟨?_, ?_⟩, ?_, ?_⟩
  · intro h
    by_contra hk
    simp [reduce_model, hk] at h
  · intro h
    simp [reduce_model, h]
  · intro h
    refine ⟨by simp [reduce_model, h], ?_⟩
    intro Xraw out hout r hr
    have hn : ((reduce_model reduceExt st k).1).n_components = k := by
      simp [reduce_model, h]
    unfold State.transformM at hout
    rw [hn] at hout
    exact transform_ok_rows_length hout r hr
  · intro h
    simp [reduce_model, h]

/-- Witness for C5: reducing the 2-wide demo state to 1 succeeds and
records 1; reducing it to 5 fails and leaves the state untouched. -/
theorem C5_reduction_monotonicity_witness :
    (reduce_model (fun m _ => m) demoState 1).2 = none ∧
    (reduce_model (fun m _ => m) demoState 1).1.n_components = 1 ∧
    reduce_model (fun m _ => m) demoState 5 =
      (demoState, some .assertionError) :=
  ⟨((C5_reduction_monotonicity (fun m _ => m) demoState 1).1).mpr (by decide),
   ((C5_reduction_monotonicity (fun m _ => m) demoState 1).2.1 (by decide)).1,
   (C5_reduction_monotonicity (fun m _ => m) demoState 5).2.2 (by decide)⟩

/-- Claim C6, counterexample: at `n_components = 400` the recorded component
count is clamped to 300, but the default file name `__init__` resolves is
built from the *unclamped* argument — `"cc.en.400.bin"`, not the naming
convention applied to the effective (clamped) value, `"cc.en.300.bin"`. -/
theorem C6_counterexample :
    initNComponents 400 = 300 ∧
    initFileName "en" 400 none = "cc.en.400.bin" ∧
    initFileName "en" 400 none ≠ defaultFileName "en" (initNComponents 400) := by
  refine ⟨rfl, rfl, ?_⟩
  decide

/-- Claim C6, amended: constructing with `n_components ≥ 300` clamps the
recorded component count to 300; the default file name, however, follows the
`"cc.<language>.<n>.bin"` convention applied to the *caller-supplied*
(unclamped) value. -/
theorem C6_clamping_amended (n : Nat) (language : String) (h : 300 ≤ n) :
    initNComponents n = 300 ∧
    initFileName language n none = defaultFileName language n := by
  refine ⟨?_, rfl⟩
  unfold initNComponents
  rw [if_neg (by omega)]

/-- Witness for the amended claim C6 at `n_components = 400`. -/
theorem C6_clamping_amended_witness :
    initNComponents 400 = 300 ∧
    initFileName "en" 400 none = defaultFileName "en" 400 :=
  C6_clamping_amended 400 "en" (by decide)

/-- Claim C7: with a storage directory containing no model file at all,
construction fails with `FileNotFoundError` whose message names the expected
300-dimensional file path and instructs the caller to download the model or
load it manually; no object state (hence no model handle) is produced. -/
theorem C7_missing_model (reduceExt : FTModel → Nat → FTModel) (n : Nat)
    (language bin_dir : String) (file_name : Option String) :
    init (fun _ => none) reduceExt n language bin_dir file_name =
      .error (.fileNotFound
        (modelNotFoundMsg (pathJoin bin_dir (defaultFileName language 300)))) :=
  rfl

/-- A storage directory holding exactly one file: the 300-dimensional
English model, storing `m`. -/
def fs300 (m : FTModel) : FileStore := fun p =>
  if p = pathJoin "./fastText_bins" (defaultFileName "en" 300) then some m
  else none

/-- Claim C8: with only the 300-dimensional file present and
`n_components = 50` requested, construction succeeds via the reduce-on-load
fallback: the stored 300-dimensional model is loaded and reduced in place to
50 (`reduceExt m 50`), the recorded count is 50, and every successful
subsequent transform yields rows of length 50.  `load_model` contains no
write operation at all, so no 50-dimensional file can appear in the store as
a side effect. -/
theorem C8_load_fallback (m : FTModel) (reduceExt : FTModel → Nat → FTModel) :
    ∃ st, init (fs300 m) reduceExt 50 "en" "./fastText_bins" none = .ok st ∧
      st.n_components = 50 ∧
      st.ft_model = reduceExt m 50 ∧
      ∀ Xraw out, st.transformM Xraw = .ok out → ∀ r ∈ out, r.length = 50 := by
  refine ⟨⟨50, "en", "./fastText_bins",
      pathJoin "./fastText_bins" (initFileName "en" 50 none), reduceExt m 50⟩,
    ?_, rfl, rfl, ?_⟩
  · have h1 : fs300 m (pathJoin "./fastText_bins" (initFileName "en" 50 none)) =
        none := by
      unfold fs300
      rw [if_neg (by decide)]
    have h2 : fs300 m (pathJoin "./fastText_bins" (defaultFileName "en" 300)) =
        some m := by
      unfold fs300
      rw [if_pos rfl]
    show load_model (fs300 m) reduceExt (initNComponents 50) "en"
        "./fastText_bins" (pathJoin "./fastText_bins" (initFileName "en" 50 none)) = _
    simp only [load_model, h1, h2, initNComponents]
    rfl
  · intro Xraw out hout r hr
    exact transform_ok_rows_length hout r hr

/-- Witness for C8: the ∃ instantiated at the demo model with truncation as
the external reduction. -/
theorem C8_load_fallback_witness :
    ∃ st, init (fs300 demoModel) (fun m k => ⟨fun s => (m.get_sentence_vector s).take k⟩)
        50 "en" "./fastText_bins" none = .ok st ∧
      st.n_components = 50 ∧
      st.ft_model = (fun (m : FTModel) (k : Nat) =>
        FTModel.mk (fun s => (m.get_sentence_vector s).take k)) demoModel 50 ∧
      ∀ Xraw out, st.transformM Xraw = .ok out → ∀ r ∈ out, r.length = 50 :=
  C8_load_fallback demoModel (fun m k => ⟨fun s => (m.get_sentence_vector s).take k⟩)

/-- Claim C9: `transform` type-checks only the first element: any nonempty
input with a non-string first element fails with the "not string" assertion,
and any input with a string first element never raises that error, whatever
the later elements are — no per-element scan happens. -/
theorem C9_first_element_check (model : FTModel) (n : Nat) :
    (∀ (k : Int) (rest : List Value),
      transform model n (.d1 (Value.int k :: rest)) = .error .notString) ∧
    (∀ (s : String) (rest : List Value),
      transform model n (.d1 (Value.str s :: rest)) ≠ .error .notString) := by
  constructor
  · intro k rest
    rfl
  · intro s rest h
    unfold transform transformCore at h
    simp only [checkShapeFlatten, List.head?] at h
    split at h
    next e heq =>
      have he := asStrings_error heq
      simp only at h
      injection h with h
      rw [he] at h
      cases h
    next Xs heq =>
      split at h
      next e t hb =>
        have he := buildRows_error hb
        simp only at h
        injection h with h
        rw [he] at h
        cases h
      next rows t hb =>
        split at h
        next e hg =>
          have he := gatherRows_error hg
          simp only at h
          injection h with h
          rw [he] at h
          cases h
        next out hg =>
          simp only at h
          cases h

/-- Witness for C9: `[3, "a"]` (non-string head) is rejected as non-string;
`["a", 5]` (string head, non-string tail) is not rejected by the string
check. -/
theorem C9_first_element_check_witness :
    transform demoModel 2 (.d1 [Value.int 3, Value.str "a"]) =
      .error .notString ∧
    transform demoModel 2 (.d1 [Value.str "a", Value.int 5]) ≠
      .error .notString :=
  ⟨(C9_first_element_check demoModel 2).1 3 [Value.str "a"],
   (C9_first_element_check demoModel 2).2 "a" [Value.int 5]⟩

/-- Claim C10: the empty 1-D input does not produce an empty
`(0, n_components)` matrix: `X[0]` raises an indexing error during the
first-element type check, before any provider call is made (the provider
call trace is empty). -/
theorem C10_empty_input (model : FTModel) (n : Nat) :
    transformCore model n (.d1 []) = (.error .indexError, []) ∧
    ∀ out, transform model n (.d1 []) ≠ .ok out := by
  refine ⟨rfl, ?_⟩
  intro out h
  exact Except.noConfusion h

/-- Witness for C10 at the demo provider. -/
theorem C10_empty_input_witness :
    transformCore demoModel 2 (.d1 []) = (.error .indexError, []) ∧
    ∀ out, transform demoModel 2 (.d1 []) ≠ .ok out :=
  C10_empty_input demoModel 2

end PretrainedFastText
